import Mathlib

set_option linter.unusedSectionVars false

/-!
Verification of the dtmm core (EMinsight/dtmm).

Shallow embedding of the parts of the code base that the claims are about:
the dense 4x4 linear algebra of src/dtmm/linalg.py, the diffraction and
projection machinery of src/dtmm/diffract.py and src/dtmm/transfer.py, the
optical-data validation of src/dtmm/data.py, and the multi-pass transfer
loop of src/dtmm/transfer.py.

Complex machine numbers are modelled by an arbitrary field K wherever the
code only uses field operations (the complex numbers are an instance); the
claims that genuinely need complex structure (the real-part extraction in
the transmit kernel, the quadratic field intensity) are modelled over the
mathematical complex numbers.  IEEE NaN propagation is modelled by Option:
none stands for NaN and multiplication by none absorbs, exactly as NaN
does.  Code of the dtmm package that is not under src (dtmm/fft.py,
dtmm/tmm.py, dtmm/field.py) is modelled from the spec where a claim needs
it; every such definition carries a doc comment saying so.
-/

namespace Dtmm

/-- A 4x4 matrix over the scalar type K, indexed as in the numpy code. -/
abbrev Mat4 (K : Type) : Type := Fin 4 → Fin 4 → K

/-- A 4-vector (a diagonal, an eigenvalue list, or one field sample). -/
abbrev Vec4 (K : Type) : Type := Fin 4 → K

/-- A field array: one 4-component sample per transverse pixel p.  The
numpy layout field[component, i, j] is modelled with the pixel index
first; the layout does not matter for any of the claims. -/
abbrev FieldArr (P K : Type) : Type := P → Fin 4 → K

variable {K : Type} [Field K] [DecidableEq K]

/-- Identity 4x4 matrix. -/
def id4 : Mat4 K := fun i j => if i = j then 1 else 0

/-- Embedding of _dotmm (linalg.py lines 115-134): 4x4 matrix product,
entry (i, j) written with the four explicit products as in the source. -/
def dotmm (a b : Mat4 K) : Mat4 K := fun i j =>
  a i 0 * b 0 j + a i 1 * b 1 j + a i 2 * b 2 j + a i 3 * b 3 j

/-- Embedding of _dotmd (linalg.py lines 209-249): product of a 4x4 matrix
with a diagonal matrix, out[i,j] = a[i,j] * b[j]. -/
def dotmd (a : Mat4 K) (d : Vec4 K) : Mat4 K := fun i j => a i j * d j

/-- Embedding of _dotmv (linalg.py lines 198-207): matrix times vector. -/
def dotmv (a : Mat4 K) (b : Vec4 K) : Vec4 K := fun i =>
  a i 0 * b 0 + a i 1 * b 1 + a i 2 * b 2 + a i 3 * b 3

/-- Embedding of dotmdm (linalg.py lines 552-557): first _dotmd then
_dotmm, computing a . diag(d) . b. -/
def dotmdm (a : Mat4 K) (d : Vec4 K) (b : Mat4 K) : Mat4 K :=
  dotmm (dotmd a d) b

/-- Embedding of _dotmf (linalg.py lines 271-288): per-pixel product of a
4x4 matrix array with a 4-component field. -/
def dotmf {P : Type} (a : P → Mat4 K) (b : FieldArr P K) : FieldArr P K :=
  fun p k =>
  let b0 := b p 0
  let b1 := b p 1
  let b2 := b p 2
  let b3 := b p 3
  a p k 0 * b0 + a p k 1 * b1 + a p k 2 * b2 + a p k 3 * b3

/-!  The closed-form 4x4 inverse of _inv4x4 (linalg.py lines 27-94).  The
source computes twelve products tmp0..tmp11 of entries of columns 2 and 3,
uses them for the first eight cofactors (rows 0 and 1 of dst), then
overwrites tmp0..tmp11 with products of entries of columns 0 and 1 for the
second eight cofactors; here the second block is named tmq0..tmq11. -/

/-- Product src[2,2]*src[3,3] (linalg.py line 30). -/
def tmp0 (s : Mat4 K) : K := s 2 2 * s 3 3

/-- Product src[3,2]*src[2,3] (linalg.py line 31). -/
def tmp1 (s : Mat4 K) : K := s 3 2 * s 2 3

/-- Product src[1,2]*src[3,3] (linalg.py line 32). -/
def tmp2 (s : Mat4 K) : K := s 1 2 * s 3 3

/-- Product src[3,2]*src[1,3] (linalg.py line 33). -/
def tmp3 (s : Mat4 K) : K := s 3 2 * s 1 3

/-- Product src[1,2]*src[2,3] (linalg.py line 34). -/
def tmp4 (s : Mat4 K) : K := s 1 2 * s 2 3

/-- Product src[2,2]*src[1,3] (linalg.py line 35). -/
def tmp5 (s : Mat4 K) : K := s 2 2 * s 1 3

/-- Product src[0,2]*src[3,3] (linalg.py line 36). -/
def tmp6 (s : Mat4 K) : K := s 0 2 * s 3 3

/-- Product src[3,2]*src[0,3] (linalg.py line 37). -/
def tmp7 (s : Mat4 K) : K := s 3 2 * s 0 3

/-- Product src[0,2]*src[2,3] (linalg.py line 38). -/
def tmp8 (s : Mat4 K) : K := s 0 2 * s 2 3

/-- Product src[2,2]*src[0,3] (linalg.py line 39). -/
def tmp9 (s : Mat4 K) : K := s 2 2 * s 0 3

/-- Product src[0,2]*src[1,3] (linalg.py line 40). -/
def tmp10 (s : Mat4 K) : K := s 0 2 * s 1 3

/-- Product src[1,2]*src[0,3] (linalg.py line 41). -/
def tmp11 (s : Mat4 K) : K := s 1 2 * s 0 3

/-- Product src[2,0]*src[3,1] (linalg.py line 54, second tmp block). -/
def tmq0 (s : Mat4 K) : K := s 2 0 * s 3 1

/-- Product src[3,0]*src[2,1] (linalg.py line 55). -/
def tmq1 (s : Mat4 K) : K := s 3 0 * s 2 1

/-- Product src[1,0]*src[3,1] (linalg.py line 56). -/
def tmq2 (s : Mat4 K) : K := s 1 0 * s 3 1

/-- Product src[3,0]*src[1,1] (linalg.py line 57). -/
def tmq3 (s : Mat4 K) : K := s 3 0 * s 1 1

/-- Product src[1,0]*src[2,1] (linalg.py line 58). -/
def tmq4 (s : Mat4 K) : K := s 1 0 * s 2 1

/-- Product src[2,0]*src[1,1] (linalg.py line 59). -/
def tmq5 (s : Mat4 K) : K := s 2 0 * s 1 1

/-- Product src[0,0]*src[3,1] (linalg.py line 60). -/
def tmq6 (s : Mat4 K) : K := s 0 0 * s 3 1

/-- Product src[3,0]*src[0,1] (linalg.py line 61). -/
def tmq7 (s : Mat4 K) : K := s 3 0 * s 0 1

/-- Product src[0,0]*src[2,1] (linalg.py line 62). -/
def tmq8 (s : Mat4 K) : K := s 0 0 * s 2 1

/-- Product src[2,0]*src[0,1] (linalg.py line 63). -/
def tmq9 (s : Mat4 K) : K := s 2 0 * s 0 1

/-- Product src[0,0]*src[1,1] (linalg.py line 64). -/
def tmq10 (s : Mat4 K) : K := s 0 0 * s 1 1

/-- Product src[1,0]*src[0,1] (linalg.py line 65). -/
def tmq11 (s : Mat4 K) : K := s 1 0 * s 0 1

/-- The sixteen cofactor entries dst[i,j] of _inv4x4 before the final
multiplication by 1/det (linalg.py lines 43-74). -/
def cof (s : Mat4 K) : Mat4 K := fun i j =>
  match i, j with
  | 0, 0 => tmp0 s * s 1 1 + tmp3 s * s 2 1 + tmp4 s * s 3 1
            - tmp1 s * s 1 1 - tmp2 s * s 2 1 - tmp5 s * s 3 1
  | 0, 1 => tmp1 s * s 0 1 + tmp6 s * s 2 1 + tmp9 s * s 3 1
            - tmp0 s * s 0 1 - tmp7 s * s 2 1 - tmp8 s * s 3 1
  | 0, 2 => tmp2 s * s 0 1 + tmp7 s * s 1 1 + tmp10 s * s 3 1
            - tmp3 s * s 0 1 - tmp6 s * s 1 1 - tmp11 s * s 3 1
  | 0, 3 => tmp5 s * s 0 1 + tmp8 s * s 1 1 + tmp11 s * s 2 1
            - tmp4 s * s 0 1 - tmp9 s * s 1 1 - tmp10 s * s 2 1
  | 1, 0 => tmp1 s * s 1 0 + tmp2 s * s 2 0 + tmp5 s * s 3 0
            - tmp0 s * s 1 0 - tmp3 s * s 2 0 - tmp4 s * s 3 0
  | 1, 1 => tmp0 s * s 0 0 + tmp7 s * s 2 0 + tmp8 s * s 3 0
            - tmp1 s * s 0 0 - tmp6 s * s 2 0 - tmp9 s * s 3 0
  | 1, 2 => tmp3 s * s 0 0 + tmp6 s * s 1 0 + tmp11 s * s 3 0
            - tmp2 s * s 0 0 - tmp7 s * s 1 0 - tmp10 s * s 3 0
  | 1, 3 => tmp4 s * s 0 0 + tmp9 s * s 1 0 + tmp10 s * s 2 0
            - tmp5 s * s 0 0 - tmp8 s * s 1 0 - tmp11 s * s 2 0
  | 2, 0 => tmq0 s * s 1 3 + tmq3 s * s 2 3 + tmq4 s * s 3 3
            - (tmq1 s * s 1 3 + tmq2 s * s 2 3 + tmq5 s * s 3 3)
  | 2, 1 => tmq1 s * s 0 3 + tmq6 s * s 2 3 + tmq9 s * s 3 3
            - (tmq0 s * s 0 3 + tmq7 s * s 2 3 + tmq8 s * s 3 3)
  | 2, 2 => tmq2 s * s 0 3 + tmq7 s * s 1 3 + tmq10 s * s 3 3
            - (tmq3 s * s 0 3 + tmq6 s * s 1 3 + tmq11 s * s 3 3)
  | 2, 3 => tmq5 s * s 0 3 + tmq8 s * s 1 3 + tmq11 s * s 2 3
            - (tmq4 s * s 0 3 + tmq9 s * s 1 3 + tmq10 s * s 2 3)
  | 3, 0 => tmq2 s * s 2 2 + tmq5 s * s 3 2 + tmq1 s * s 1 2
            - (tmq4 s * s 3 2 + tmq0 s * s 1 2 + tmq3 s * s 2 2)
  | 3, 1 => tmq8 s * s 3 2 + tmq0 s * s 0 2 + tmq7 s * s 2 2
            - (tmq6 s * s 2 2 + tmq9 s * s 3 2 + tmq1 s * s 0 2)
  | 3, 2 => tmq6 s * s 1 2 + tmq11 s * s 3 2 + tmq3 s * s 0 2
            - (tmq10 s * s 3 2 + tmq2 s * s 0 2 + tmq7 s * s 1 2)
  | 3, 3 => tmq10 s * s 2 2 + tmq4 s * s 0 2 + tmq9 s * s 1 2
            - (tmq8 s * s 1 2 + tmq11 s * s 2 2 + tmq5 s * s 0 2)

/-- The determinant as computed at linalg.py line 76:
det = src[0,0]*dst[0,0] + src[1,0]*dst[0,1] + src[2,0]*dst[0,2]
      + src[3,0]*dst[0,3]. -/
def det4 (s : Mat4 K) : K :=
  s 0 0 * cof s 0 0 + s 1 0 * cof s 0 1 + s 2 0 * cof s 0 2
    + s 3 0 * cof s 0 3

/-- The value branch of _inv4x4: when det is not zero the code sets
det = 1./det and multiplies every dst entry by it (lines 88-92). -/
def inv4x4val (s : Mat4 K) : Mat4 K := fun i j => cof s i j * (det4 s)⁻¹

/-- NaN propagation: none stands for IEEE NaN, and multiplying a finite
value by NaN gives NaN, as dst[i,j]*det does when det was set to np.nan. -/
def mulNaN (x : K) (d : Option K) : Option K := d.map (fun y => x * y)

/-- Embedding of _inv4x4 (linalg.py lines 27-94): when the determinant is
exactly zero the scale factor is np.nan (modelled none) and every one of
the sixteen entries dst[i,j]*det becomes NaN; otherwise every entry is the
cofactor times 1/det. -/
def inv4x4 (s : Mat4 K) : Fin 4 → Fin 4 → Option K := fun i j =>
  mulNaN (cof s i j) (if det4 s = 0 then none else some (det4 s)⁻¹)

/-- Concrete singular input for witnesses: the zero matrix.  Witness
evaluation uses the field ZMod 3 because its arithmetic reduces in the
kernel. -/
def singularM : Mat4 (ZMod 3) := fun _ _ => 0

/-- Concrete nonsingular input for witnesses: diag(1, 2, 1, 2), whose
determinant is 4 = 1 in ZMod 3. -/
def sampleM : Mat4 (ZMod 3) := fun i j =>
  if i = j then (if i.val % 2 = 0 then 1 else 2) else 0


/-!  Normalization correction factors (src/dtmm/transfer.py).  Intensities
are real; the complex field is multiplied by a real factor, which scales
its real and imaginary components alike, so the scalar arithmetic is
modelled over a linear ordered field R. -/

/-- Embedding of the correction factor of normalize_field (transfer.py
lines 87-95): pixels where the output intensity is exactly zero get the
output intensity replaced by one and the input intensity by zero, then
fact = in/out is clamped at -1 from below and at 1 from above and its
absolute value is taken. -/
def norm_fact {R : Type} [LinearOrderedField R]
    (intensity_in intensity_out : R) : R :=
  let iout := if intensity_out = 0 then 1 else intensity_out
  let iin := if intensity_out = 0 then 0 else intensity_in
  let fact0 := iin / iout
  let fact1 := if fact0 ≤ -1 then -1 else fact0
  let fact2 := if fact1 ≥ 1 then 1 else fact1
  |fact2|

/-- Embedding of normalize_field (transfer.py lines 87-95): the field is
multiplied by the per-pixel factor, broadcast over the four components
(fact[..., None, :, :] in the source). -/
def normalize_field {P R : Type} [LinearOrderedField R]
    (field : P → Fin 4 → R) (intensity_in intensity_out : P → R) :
    P → Fin 4 → R :=
  fun p k => field p k * norm_fact (intensity_in p) (intensity_out p)

/-- Embedding of the correction factor of normalize_field_total
(transfer.py lines 142-151): identical clamp chain on the single total
intensity pair. -/
def norm_fact_total {R : Type} [LinearOrderedField R] (i1 i2 : R) : R :=
  let i2m := if i2 = 0 then 1 else i2
  let i1m := if i2 = 0 then 0 else i1
  let fact0 := i1m / i2m
  let fact1 := if fact0 ≤ -1 then -1 else fact0
  let fact2 := if fact1 ≥ 1 then 1 else fact1
  |fact2|

/-- Embedding of normalize_field_total (transfer.py lines 142-151): the
field is multiplied by the scalar factor, broadcast over components and
pixels (fact[..., None, None, None] in the source). -/
def normalize_field_total {P R : Type} [LinearOrderedField R]
    (field : P → Fin 4 → R) (i1 i2 : R) : P → Fin 4 → R :=
  fun p k => field p k * norm_fact_total i1 i2


/-!  Python-level error behaviour (src/dtmm/linalg.py wrapper functions and
src/dtmm/data.py validation).  An Except value models a Python call that
either returns or raises. -/

/-- Python exceptions relevant to the claims.  The constructors valueError,
typeError and assertionError model exceptions the code actually raises;
invalidShapeError models the InvalidShapeError named by the spec, which
appears nowhere in the source. -/
inductive PyErr where
  | valueError (msg : String) : PyErr
  | typeError : PyErr
  | assertionError : PyErr
  | invalidShapeError : PyErr
deriving DecidableEq, Repr

/-- A Python assert statement: raises AssertionError when the condition is
false. -/
def pyAssert (cond : Bool) : Except PyErr Unit :=
  if cond then .ok () else .error .assertionError

deriving instance DecidableEq for Except

/-- Whether an Except value is a normal return. -/
def exceptIsOk {E A : Type} : Except E A → Bool
  | .ok _ => true
  | .error _ => false

/-- Shape check of the inv4x4 wrapper (linalg.py line 110):
assert mat.shape[0] >= 4.  The argument is the length of the checked
axis. -/
def inv4x4_check (n : ℕ) : Except PyErr Unit := pyAssert (4 ≤ n)

/-- Shape check of the dotmm wrapper (linalg.py line 531). -/
def dotmm_check (n : ℕ) : Except PyErr Unit := pyAssert (4 ≤ n)

/-- Shape check of the dotmd wrapper (linalg.py line 537). -/
def dotmd_check (n : ℕ) : Except PyErr Unit := pyAssert (4 ≤ n)

/-- Shape check of the dotmv wrapper (linalg.py line 549). -/
def dotmv_check (n : ℕ) : Except PyErr Unit := pyAssert (4 ≤ n)

/-- Shape check of the dotmdm wrapper (linalg.py line 555). -/
def dotmdm_check (n : ℕ) : Except PyErr Unit := pyAssert (4 ≤ n)

/-- Shape check of the dotmf wrapper (linalg.py line 477, on the field
component axis b.shape[0]). -/
def dotmf_check (n : ℕ) : Except PyErr Unit := pyAssert (4 ≤ n)

/-- Shape check of the dotm1f wrapper (linalg.py line 471). -/
def dotm1f_check (n : ℕ) : Except PyErr Unit := pyAssert (4 ≤ n)

/-- Shape check of the transmit wrapper (linalg.py lines 498-500): the
wrapper body calls _transmit directly and contains no assert statement at
all, so every shape is accepted. -/
def transmit_check (_n : ℕ) : Except PyErr Unit := .ok ()

/-- Modelled from the spec (section 4.1): every Dense4Matrix operation
requires the leading matrix dimension to be at least 4 and fails with an
InvalidShapeError otherwise.  This is the behaviour the spec asserts, kept
for comparison with the checks the code performs. -/
def spec_shape_check (n : ℕ) : Except PyErr Unit :=
  if 4 ≤ n then .ok () else .error .invalidShapeError

/-- Embedding of the method dispatch of _transfer_field (transfer.py lines
492-501): the string-valued method parameter selects the effective or the
full propagator; the propagators themselves are abstract here. -/
def method_dispatch {F : Type} (eff full : F → F) (method : String) :
    F → F :=
  if method = "effective" then eff else full

/-- Embedding of the split dispatch of transfer_field (transfer.py lines
356-379): with split False the single call processes the rays with the
given method; with split True each ray is processed by a sub-call to
_transfer_field whose argument list (lines 374-377) omits the method
parameter, so every sub-call runs with the default method, which is
"effective" (line 385). -/
def transfer_field_rays {F : Type} (eff full : F → F) (split : Bool)
    (method : String) (rays : List F) : List F :=
  if split = false then
    rays.map (method_dispatch eff full method)
  else
    rays.map (method_dispatch eff full "effective")

/-!  Shape-level embedding of validate_optical_data (src/dtmm/data.py
lines 271-348).  A numpy array is represented by its shape, a list of
axis lengths; the dtype conversions in the source do not affect shapes.
len() of an array is the head of its shape, and len() of a 0-dimensional
array raises TypeError in numpy. -/

abbrev Shape := List ℕ

/-- Embedding of validate_optical_data (data.py lines 271-348) on shapes.
A scalar thickness gets a leading axis (thickness[None]); a 1-dimensional
material or angles with homogeneous, or 3-dimensional without, is
broadcast to a leading layer axis; the length and dimension checks then
run in source order, each failure raising ValueError with the message of
the source, except that taking len() of a 0-dimensional array raises
TypeError. -/
def validate_optical_data (t m a : Shape) (homogeneous : Bool) :
    Except PyErr (Shape × Shape × Shape) :=
  let t1 := if t.length == 0 then [1] else t
  if t1.length != 1 then
    .error (.valueError "Thickness dimension should be 1.")
  else
    let n := t1.headD 0
    let m1 := if (m.length == 1 && homogeneous)
        || (m.length == 3 && !homogeneous) then n :: m else m
    match m1 with
    | [] => .error .typeError
    | lm :: mrest =>
      if lm != n then
        .error (.valueError "Material length should match thickness length")
      else if ((lm :: mrest).length != 2 && homogeneous)
          || ((lm :: mrest).length != 4 && !homogeneous) then
        .error (.valueError "Invalid dimensions of the material.")
      else
        let a1 := if (a.length == 1 && homogeneous)
            || (a.length == 3 && !homogeneous) then n :: a else a
        match a1 with
        | [] => .error .typeError
        | la :: arest =>
          if la != n then
            .error (.valueError "Angles length should match thickness length")
          else if ((la :: arest).length != 2 && homogeneous)
              || ((la :: arest).length != 4 && !homogeneous) then
            .error (.valueError "Invalid dimensions of the angles.")
          else if (lm :: mrest) != (la :: arest) then
            .error (.valueError "Incompatible shapes for angles and material")
          else
            .ok (t1, lm :: mrest, la :: arest)

/-- Embedding of the eager validation in _transfer_field (transfer.py line
403): the optical data is validated before anything else runs, and only
the validated data reaches the propagation, which is abstracted as a
function of the validated tuple. -/
def transfer_field_eager {A : Type} (propagate : Shape × Shape × Shape → A)
    (t m a : Shape) : Except PyErr A :=
  (validate_optical_data t m a false).map propagate

/-- The shape conditions that validate_optical_data actually enforces for
the inhomogeneous call made by _transfer_field, stated directly as one
boolean: thickness at most 1-dimensional, material and angles
4-dimensional after the optional broadcast of 3-dimensional input, leading
lengths equal to the layer count, and equal material and angles shapes. -/
def checked_invariants (t m a : Shape) : Bool :=
  let t1 := if t.length == 0 then [1] else t
  let n := t1.headD 0
  let m1 := if m.length == 3 then n :: m else m
  let a1 := if a.length == 3 then n :: a else a
  t1.length == 1 && m1.length == 4 && m1.headD 0 == n
    && a1.length == 4 && a1.headD 0 == n && m1 == a1

/-- Modelled from the spec (section 3 data model): a valid inhomogeneous
optical data tuple has thickness of shape [n] and material and angles of
shape [n, h, w, 3]; in particular the trailing dimension is 3. -/
def spec_valid_optical_data (t m a : Shape) : Bool :=
  match m with
  | [n, h, w, c] => c == 3 && t == [n] && a == [n, h, w, c]
  | _ => false


/-!  Diffraction and projection machinery (src/dtmm/diffract.py,
src/dtmm/transfer.py).  The eigen decomposition alphaffi and the 2D
Fourier transform pair fft2/ifft2 come from dtmm/tmm.py and dtmm/fft.py,
which are not under src; they are modelled from the spec as parameters,
with their contracts (fi inverse of f; transforms mutually inverse and
additive) as hypotheses of the theorems.  Machine floats are rational
numbers, so the beta grid and betamax are modelled in the rationals; the
betamax equal to infinity of the claim is the situation in which no grid
beta reaches betamax, stated as a hypothesis. -/

/-- Modelled from the spec (section 6): phaseDiagonal gives the complex
exponential phase accrual per mode over kd, exp(i kd alpha).  The
exponential is abstracted as a map cexp from phase to scalar, with
cexp 0 = 1 assumed where a theorem needs it.  This models phasem from
dtmm/tmm.py. -/
def phasem (cexp : K → K) (alpha : Vec4 K) (kd : K) : Vec4 K :=
  fun m => cexp (kd * alpha m)

/-- Embedding of phase_matrix (diffract.py lines 151-166): the phasem
diagonal, with mode "t" zeroing the odd entries and mode "r" zeroing the
even ones; the mask argument is None at the projection_matrix call site
and is omitted. -/
def phase_matrix (cexp : K → K) (alpha : Vec4 K) (kd : K)
    (mode : Option String) : Vec4 K :=
  fun m =>
    if mode = some "t" then
      if m.val % 2 = 1 then 0 else phasem cexp alpha kd m
    else if mode = some "r" then
      if m.val % 2 = 0 then 0 else phasem cexp alpha kd m
    else phasem cexp alpha kd m

/-- Embedding of diffraction_alphaffi (diffract.py lines 51-92): the
eigen data alpha, f, fi are per-pixel parameters; pixels whose beta is at
or above betamax get f, fi and alpha zeroed (lines 86-89).  The tukey
taper block (lines 75-85) is a no-op for a scalar betamax: the tuple
unpacking raises and the bare except swallows it. -/
def diffraction_alphaffi {P : Type} (alpha : P → Vec4 K)
    (f fi : P → Mat4 K) (beta : P → ℚ) (betamax : ℚ) :
    (P → Vec4 K) × (P → Mat4 K) × (P → Mat4 K) :=
  (fun p => if betamax ≤ beta p then fun _ => 0 else alpha p,
   fun p => if betamax ≤ beta p then fun _ _ => 0 else f p,
   fun p => if betamax ≤ beta p then fun _ _ => 0 else fi p)

/-- Embedding of projection_matrix (diffract.py lines 230-241): kd is
zeros_like(ks) and mask is None, so the matrix is f . diag(phase at kd 0,
mode-filtered) . fi per pixel, on the masked eigen data. -/
def projection_matrix {P : Type} (cexp : K → K) (alpha : P → Vec4 K)
    (f fi : P → Mat4 K) (beta : P → ℚ) (betamax : ℚ)
    (mode : Option String) : P → Mat4 K :=
  fun p =>
    let d := diffraction_alphaffi alpha f fi beta betamax
    dotmdm (d.2.1 p) (phase_matrix cexp (d.1 p) 0 mode) (d.2.2 p)

/-- Embedding of diffract (diffract.py lines 244-250): fft2, per-pixel
matrix application via dotmf, ifft2, optional element-wise window
multiply. -/
def diffract {P : Type} (fft2 ifft2 : FieldArr P K → FieldArr P K)
    (fieldv : FieldArr P K) (dmat : P → Mat4 K)
    (window : Option (FieldArr P K)) : FieldArr P K :=
  let f := fft2 fieldv
  let f2 := dotmf dmat f
  let out := ifft2 f2
  match window with
  | none => out
  | some w => fun p k => out p k * w p k

/-- Embedding of _projected_field (transfer.py lines 175-188) on the norm
None path taken by the projections with default norm: build the projection
matrix for the homogeneous-medium eigen data and diffract with it, no
window.  The norm "fft", "local" and "total" branches dispatch to the
normalized diffract variants whose correction factors are norm_fact and
norm_fact_total above. -/
def projected_field {P : Type} (fft2 ifft2 : FieldArr P K → FieldArr P K)
    (cexp : K → K) (alpha : P → Vec4 K) (f fi : P → Mat4 K)
    (beta : P → ℚ) (betamax : ℚ) (mode : Option String)
    (fieldv : FieldArr P K) : FieldArr P K :=
  diffract fft2 ifft2 fieldv
    (projection_matrix cexp alpha f fi beta betamax mode) none


/-!  The fused transmit kernel (src/dtmm/linalg.py lines 348-370) over the
complex numbers.  The kernel multiplies by np.exp(1j*kd*d[i,j,k].real):
the real part of the phase diagonal entry enters the exponential, which
keeps the factor a pure phase of modulus one. -/

/-- Embedding of one pixel of _transmit (linalg.py lines 349-370): f0..f3
the field components, out0..out3 the product with b, b0..b3 the
phase-multiplied values with phase exp(i kd Re(d)), and the result the
product with a. -/
noncomputable def transmit_px (a : Mat4 ℂ) (d : Vec4 ℂ) (b : Mat4 ℂ)
    (fv : Vec4 ℂ) (kd : ℝ) : Vec4 ℂ :=
  let f0 := fv 0
  let f1 := fv 1
  let f2 := fv 2
  let f3 := fv 3
  let out0 := b 0 0 * f0 + b 0 1 * f1 + b 0 2 * f2 + b 0 3 * f3
  let out1 := b 1 0 * f0 + b 1 1 * f1 + b 1 2 * f2 + b 1 3 * f3
  let out2 := b 2 0 * f0 + b 2 1 * f1 + b 2 2 * f2 + b 2 3 * f3
  let out3 := b 3 0 * f0 + b 3 1 * f1 + b 3 2 * f2 + b 3 3 * f3
  let b0 := out0 * Complex.exp (Complex.I * kd * ((d 0).re : ℂ))
  let b1 := out1 * Complex.exp (Complex.I * kd * ((d 1).re : ℂ))
  let b2 := out2 * Complex.exp (Complex.I * kd * ((d 2).re : ℂ))
  let b3 := out3 * Complex.exp (Complex.I * kd * ((d 3).re : ℂ))
  fun k => a k 0 * b0 + a k 1 * b1 + a k 2 * b2 + a k 3 * b3

/-- Embedding of _transmit and its transmit wrapper (linalg.py lines
348-370 and 498-500): the kernel applied at every transverse pixel. -/
noncomputable def transmit {P : Type} (a : P → Mat4 ℂ) (d : P → Vec4 ℂ)
    (b : P → Mat4 ℂ) (fv : FieldArr P ℂ) (kd : ℝ) : FieldArr P ℂ :=
  fun p => transmit_px (a p) (d p) (b p) (fun k => fv p k) kd

/-- Per-pixel application of the phase diagonal with the real part taken,
as the kernel computes it; used to state the fused kernel as the
composition a . diag(phase) . b . field. -/
noncomputable def phase_apply_re {P : Type} (d : P → Vec4 ℂ) (kd : ℝ)
    (g : FieldArr P ℂ) : FieldArr P ℂ :=
  fun p k => Complex.exp (Complex.I * kd * ((d p k).re : ℂ)) * g p k

/-- The per-pixel operation the spec states for transmit:
a . diag(exp(i kd d)) . b . field with the full complex phase diagonal d,
not its real part; kept for comparison with the kernel. -/
noncomputable def transmit_spec_px (a : Mat4 ℂ) (d : Vec4 ℂ) (b : Mat4 ℂ)
    (fv : Vec4 ℂ) (kd : ℝ) : Vec4 ℂ :=
  dotmv a (fun k => Complex.exp (Complex.I * kd * d k) * dotmv b fv k)

/-!  Multi-pass pass-state updates (src/dtmm/transfer.py _transfer_field).
Fields are complex over a finite pixel grid.  The per-pixel intensity
field2intensity lives in dtmm/field.py, which is not under src; it is
modelled from the spec as the squared modulus of the field components
(quadratic in the field amplitude: the power normalization of the spec, where
scaling amplitudes by sqrt(nin/nout) scales total intensity by nin/nout,
fixes the quadratic grading). -/

/-- A complex field over a finite transverse pixel grid. -/
abbrev CField (P : Type) : Type := P → Fin 4 → ℂ

/-- Modelled from the spec, and embedding total_intensity (transfer.py
lines 153-156): the per-pixel intensity of dtmm/field.py (not under src)
summed over the transverse pixels; quadratic in the field amplitude. -/
noncomputable def total_intensity {P : Type} [Fintype P] (f : CField P) :
    ℝ :=
  ∑ p : P, ∑ k : Fin 4, Complex.normSq (f p k)

/-- The rescaled transmitted field of the backward-pass normalization
(transfer.py lines 533-537): the transmitted projection of the backward
field multiplied by fact = i0 / i0f, where i0f is the total intensity of
that projection. -/
noncomputable def rescaled_transmitted {P : Type} [Fintype P]
    (projT : CField P → CField P) (i0 : ℝ) (field_b : CField P) :
    CField P :=
  fun p k =>
    ((i0 / total_intensity (projT field_b) : ℝ) : ℂ) * projT field_b p k

/-- Embedding of the backward-pass update (transfer.py lines 528-543) for
a backward pass that is not the final pass: field_in is set to the
backward field (line 529), the field is projected to its transmitted part
with n = nin and no norm (line 533), fact = i0 / i0f multiplies the
projected field, field_out and field_in (lines 534-539), the field becomes
field0 minus the rescaled transmitted part (line 540) and is added into
field_in (line 541).  The calc_reference handling only copies into ref and
is omitted.  Returns (field, field_in, field_out). -/
noncomputable def backward_pass_update {P : Type} [Fintype P]
    (projT : CField P → CField P) (i0 : ℝ) (field0 : CField P)
    (field_b : CField P) (field_out : CField P) :
    CField P × CField P × CField P :=
  let t := projT field_b
  let i0f := total_intensity t
  let fact : ℝ := i0 / i0f
  let tN : CField P := fun p k => (fact : ℂ) * t p k
  let field_out1 : CField P := fun p k => (fact : ℂ) * field_out p k
  let field_in1 : CField P := fun p k => (fact : ℂ) * field_b p k
  let field1 : CField P := fun p k => field0 p k - tN p k
  let field_in2 : CField P := fun p k => field_in1 p k + field1 p k
  (field1, field_in2, field_out1)

/-- The pass state of _transfer_field: the working field, the field_in
array mutated in place, and the field_out accumulator. -/
structure PassState (P : Type) where
  field : CField P
  field_in : CField P
  field_out : CField P

/-- One pass of the _transfer_field loop (transfer.py lines 468-556) with
the propagation and projection steps abstracted: prop i is the layer loop
of pass i (lines 480-509, acting on the working field only), jreduce the
Jones reduction field[..., ::2, :, :] at the start of a transmitted-mode
pass (lines 476-478), normProjT the norm-projected transmission of a
non-final forward pass (line 523; the window is None), projTin the
transmitted projection with n = nin and no norm (line 533), out_write the
npass = 1 write into field_out (lines 546-554: the Jones assembly with
jones2H and the optional energy factor in transmitted mode, or the plain
copy).  The field_in and field_out updates mirror lines 516-555. -/
noncomputable def transfer_pass {P : Type} [Fintype P] (npass : ℕ)
    (mode_t : Bool) (prop : ℕ → CField P → CField P)
    (jreduce : CField P → CField P) (normProjT : CField P → CField P)
    (projTin : CField P → CField P) (out_write : CField P → CField P)
    (i0 : ℝ) (field0 : CField P) (i : ℕ) (s : PassState P) : PassState P :=
  let field := prop i (if mode_t then jreduce s.field else s.field)
  if 1 < npass then
    if i % 2 = 0 then
      if i ≠ npass - 1 then
        let f2 := normProjT field
        let fo : CField P := fun p k => s.field_out p k + f2 p k
        ⟨fo, s.field_in, fo⟩
      else
        let fo : CField P := fun p k => s.field_out p k + field p k
        ⟨fo, s.field_in, fo⟩
    else
      if i ≠ npass - 1 then
        let u := backward_pass_update projTin i0 field0 field s.field_out
        ⟨u.1, u.2.1, u.2.2⟩
      else
        ⟨field, field, s.field_out⟩
  else
    ⟨field, field0, out_write field⟩

/-- Embedding of _transfer_field restricted to the pass-state data flow
(transfer.py lines 424-558): field_out starts at zero (line 425), field0
and field are copies of the input (lines 433-434), the field_in array of the caller
array is zeroed in place (line 437), interference is forced on when
npass > 1 (line 440) so transmitted mode holds exactly when npass = 1 with
interference off, the initial transmitted projection (lines 443-445)
applies in transmitted mode, i0 records the total transmitted intensity of
the original input (lines 452-453), and npass passes run.  The returned
state holds field_out and the final in-place contents of field_in. -/
noncomputable def transfer_field_passes {P : Type} [Fintype P]
    (npass : ℕ) (interference : Bool) (prop : ℕ → CField P → CField P)
    (jreduce : CField P → CField P) (normProjT : CField P → CField P)
    (projTin : CField P → CField P) (out_write : CField P → CField P)
    (field_in_orig : CField P) : PassState P :=
  let field0 := field_in_orig
  let mode_t := !(decide (1 < npass) || interference)
  let i0 := total_intensity (projTin field0)
  let s0 : PassState P :=
    ⟨if mode_t then projTin field0 else field0, fun _ _ => 0, fun _ _ => 0⟩
  (List.range npass).foldl
    (fun s i => transfer_pass npass mode_t prop jreduce normProjT projTin
      out_write i0 field0 i s) s0

/-- Concrete field for the C1 counterexample: amplitude 2 in the first
component of the single pixel, total intensity 4. -/
noncomputable def cfield_b : CField (Fin 1) := fun _ k => if k = 0 then 2 else 0

end Dtmm

namespace Dtmm

variable {K : Type} [Field K] [DecidableEq K]

theorem fin4_enum : ∀ i : Fin 4, i = 0 ∨ i = 1 ∨ i = 2 ∨ i = 3 := by decide

set_option maxHeartbeats 2000000 in
theorem cof_mul_diag (s : Mat4 K) (i : Fin 4) :
    s i 0 * cof s 0 i + s i 1 * cof s 1 i + s i 2 * cof s 2 i
      + s i 3 * cof s 3 i = det4 s := by
  rcases fin4_enum i with rfl | rfl | rfl | rfl <;>
    simp only [cof, det4, tmp0, tmp1, tmp2, tmp3, tmp4, tmp5, tmp6, tmp7,
      tmp8, tmp9, tmp10, tmp11, tmq0, tmq1, tmq2, tmq3, tmq4, tmq5, tmq6,
      tmq7, tmq8, tmq9, tmq10, tmq11] <;> ring

set_option maxHeartbeats 2000000 in
theorem cof_mul_off (s : Mat4 K) (i j : Fin 4) (h : i ≠ j) :
    s i 0 * cof s 0 j + s i 1 * cof s 1 j + s i 2 * cof s 2 j
      + s i 3 * cof s 3 j = 0 := by
  rcases fin4_enum i with rfl | rfl | rfl | rfl <;>
    rcases fin4_enum j with rfl | rfl | rfl | rfl <;>
    first
      | exact absurd rfl h
      | (simp only [cof, det4, tmp0, tmp1, tmp2, tmp3, tmp4, tmp5, tmp6,
          tmp7, tmp8, tmp9, tmp10, tmp11, tmq0, tmq1, tmq2, tmq3, tmq4,
          tmq5, tmq6, tmq7, tmq8, tmq9, tmq10, tmq11]; ring)

set_option maxHeartbeats 2000000 in
theorem mul_cof_diag (s : Mat4 K) (i : Fin 4) :
    cof s i 0 * s 0 i + cof s i 1 * s 1 i + cof s i 2 * s 2 i
      + cof s i 3 * s 3 i = det4 s := by
  rcases fin4_enum i with rfl | rfl | rfl | rfl <;>
    simp only [cof, det4, tmp0, tmp1, tmp2, tmp3, tmp4, tmp5, tmp6, tmp7,
      tmp8, tmp9, tmp10, tmp11, tmq0, tmq1, tmq2, tmq3, tmq4, tmq5, tmq6,
      tmq7, tmq8, tmq9, tmq10, tmq11] <;> ring

set_option maxHeartbeats 2000000 in
theorem mul_cof_off (s : Mat4 K) (i j : Fin 4) (h : i ≠ j) :
    cof s i 0 * s 0 j + cof s i 1 * s 1 j + cof s i 2 * s 2 j
      + cof s i 3 * s 3 j = 0 := by
  rcases fin4_enum i with rfl | rfl | rfl | rfl <;>
    rcases fin4_enum j with rfl | rfl | rfl | rfl <;>
    first
      | exact absurd rfl h
      | (simp only [cof, det4, tmp0, tmp1, tmp2, tmp3, tmp4, tmp5, tmp6,
          tmp7, tmp8, tmp9, tmp10, tmp11, tmq0, tmq1, tmq2, tmq3, tmq4,
          tmq5, tmq6, tmq7, tmq8, tmq9, tmq10, tmq11]; ring)


theorem dotmm_inv4x4val_right (s : Mat4 K) (h : det4 s ≠ 0) (i j : Fin 4) :
    dotmm s (inv4x4val s) i j = id4 i j := by
  by_cases hij : i = j
  · subst hij
    have hc : dotmm s (inv4x4val s) i i
        = (s i 0 * cof s 0 i + s i 1 * cof s 1 i + s i 2 * cof s 2 i
            + s i 3 * cof s 3 i) * (det4 s)⁻¹ := by
      simp only [dotmm, inv4x4val]; ring
    rw [hc, cof_mul_diag, mul_inv_cancel₀ h]
    simp [id4]
  · have hc : dotmm s (inv4x4val s) i j
        = (s i 0 * cof s 0 j + s i 1 * cof s 1 j + s i 2 * cof s 2 j
            + s i 3 * cof s 3 j) * (det4 s)⁻¹ := by
      simp only [dotmm, inv4x4val]; ring
    rw [hc, cof_mul_off s i j hij, zero_mul]
    simp [id4, hij]

theorem dotmm_inv4x4val_left (s : Mat4 K) (h : det4 s ≠ 0) (i j : Fin 4) :
    dotmm (inv4x4val s) s i j = id4 i j := by
  by_cases hij : i = j
  · subst hij
    have hc : dotmm (inv4x4val s) s i i
        = (cof s i 0 * s 0 i + cof s i 1 * s 1 i + cof s i 2 * s 2 i
            + cof s i 3 * s 3 i) * (det4 s)⁻¹ := by
      simp only [dotmm, inv4x4val]; ring
    rw [hc, mul_cof_diag, mul_inv_cancel₀ h]
    simp [id4]
  · have hc : dotmm (inv4x4val s) s i j
        = (cof s i 0 * s 0 j + cof s i 1 * s 1 j + cof s i 2 * s 2 j
            + cof s i 3 * s 3 j) * (det4 s)⁻¹ := by
      simp only [dotmm, inv4x4val]; ring
    rw [hc, mul_cof_off s i j hij, zero_mul]
    simp [id4, hij]

/-- C3: for a 4x4 batch element with determinant exactly zero, _inv4x4
returns NaN (modelled none) in all sixteen entries, never a partial
result, and the function is total (it cannot throw); for a nonsingular
element it returns the closed-form cofactor inverse, which is a genuine
two-sided inverse of the element. -/
theorem claim_C3_inv4x4_singular_nan (s : Mat4 K) :
    (det4 s = 0 → ∀ i j, inv4x4 s i j = none) ∧
    (det4 s ≠ 0 →
      (∀ i j, inv4x4 s i j = some (inv4x4val s i j)) ∧
      (∀ i j, dotmm s (inv4x4val s) i j = id4 i j) ∧
      (∀ i j, dotmm (inv4x4val s) s i j = id4 i j)) := by
  constructor
  · intro h i j
    simp [inv4x4, mulNaN, h]
  · intro h
    refine ⟨fun i j => ?_, dotmm_inv4x4val_right s h,
      dotmm_inv4x4val_left s h⟩
    simp [inv4x4, mulNaN, h, inv4x4val]

/-- Witness for C3: the zero matrix is singular and every entry of its
inverse is NaN; diag(1,2,3,4) is nonsingular and the cofactor inverse is
its inverse. -/
theorem claim_C3_witness :
    (det4 singularM = 0 ∧ ∀ i j, inv4x4 singularM i j = none) ∧
    (det4 sampleM ≠ 0 ∧
      ∀ i j, dotmm sampleM (inv4x4val sampleM) i j = id4 i j) :=
  ⟨⟨by decide, (claim_C3_inv4x4_singular_nan singularM).1 (by decide)⟩,
   ⟨by decide,
    ((claim_C3_inv4x4_singular_nan sampleM).2 (by decide)).2.1⟩⟩

theorem clamp_abs_le_one {R : Type} [LinearOrderedField R] (x : R) :
    |if (if x ≤ -1 then (-1 : R) else x) ≥ 1 then (1 : R)
      else if x ≤ -1 then (-1 : R) else x| ≤ 1 := by
  by_cases h1 : x ≤ -1
  · simp only [h1, if_true]
    by_cases h2 : (-1 : R) ≥ 1
    · simp only [h2, if_true]; norm_num
    · simp only [h2, if_false]; norm_num
  · simp only [h1, if_false]
    by_cases h2 : x ≥ 1
    · simp only [h2, if_true]; norm_num
    · simp only [h2, if_false]
      rw [abs_le]
      push_neg at h1 h2
      constructor <;> linarith

/-- C4: in every normalization variant the real correction factor lies in
the interval from 0 to 1, a zero output intensity forces the factor to
exactly 0, and the factor is applied multiplicatively to the field. -/
theorem claim_C4_norm_factor_clamped {R : Type} [LinearOrderedField R]
    (i1 i2 : R) :
    (0 ≤ norm_fact i1 i2 ∧ norm_fact i1 i2 ≤ 1) ∧
    (i2 = 0 → norm_fact i1 i2 = 0) ∧
    (0 ≤ norm_fact_total i1 i2 ∧ norm_fact_total i1 i2 ≤ 1) ∧
    (i2 = 0 → norm_fact_total i1 i2 = 0) ∧
    (∀ (P : Type) (field : P → Fin 4 → R) (iin iout : P → R) (p : P)
      (k : Fin 4),
      normalize_field field iin iout p k
        = field p k * norm_fact (iin p) (iout p)) ∧
    (∀ (P : Type) (field : P → Fin 4 → R) (p : P) (k : Fin 4),
      normalize_field_total field i1 i2 p k
        = field p k * norm_fact_total i1 i2) := by
  refine ⟨?_, ?_, ?_, ?_, fun P field iin iout p k => rfl,
    fun P field p k => rfl⟩
  · exact ⟨abs_nonneg _,
      clamp_abs_le_one ((if i2 = 0 then (0 : R) else i1)
        / (if i2 = 0 then (1 : R) else i2))⟩
  · intro h
    simp [norm_fact, h]
    norm_num
  · exact ⟨abs_nonneg _,
      clamp_abs_le_one ((if i2 = 0 then (0 : R) else i1)
        / (if i2 = 0 then (1 : R) else i2))⟩
  · intro h
    simp [norm_fact_total, h]
    norm_num

/-- Witness for C4: concrete rational intensities, including the
zero-denominator case forced to exactly zero. -/
theorem claim_C4_witness :
    (0 ≤ norm_fact (3 : ℚ) 2 ∧ norm_fact (3 : ℚ) 2 ≤ 1) ∧
    norm_fact (5 : ℚ) 0 = 0 ∧ norm_fact_total (7 : ℚ) 0 = 0 :=
  ⟨(claim_C4_norm_factor_clamped (3 : ℚ) 2).1,
   (claim_C4_norm_factor_clamped (5 : ℚ) 0).2.1 rfl,
   (claim_C4_norm_factor_clamped (7 : ℚ) 0).2.2.2.1 rfl⟩


/-- C7 counterexample: at leading dimension 3 the transmit wrapper accepts
the input without any check, and inv4x4 fails with AssertionError; neither
behaviour matches the InvalidShapeError the claim requires, and no
InvalidShapeError exists in the source at all. -/
theorem claim_C7_counterexample :
    transmit_check 3 = .ok () ∧
    transmit_check 3 ≠ spec_shape_check 3 ∧
    inv4x4_check 3 = .error .assertionError ∧
    inv4x4_check 3 ≠ spec_shape_check 3 := by decide

/-- C7 amended: the wrapped operations inv4x4, dotmm, dotmd, dotmv,
dotmdm, dotmf and dotm1f check a leading dimension of at least 4 with a
bare assert, failing with AssertionError when it is smaller, while the
transmit wrapper performs no shape check at all. -/
theorem claim_C7_shape_asserts (n : ℕ) :
    (n < 4 →
      inv4x4_check n = .error .assertionError ∧
      dotmm_check n = .error .assertionError ∧
      dotmd_check n = .error .assertionError ∧
      dotmv_check n = .error .assertionError ∧
      dotmdm_check n = .error .assertionError ∧
      dotmf_check n = .error .assertionError ∧
      dotm1f_check n = .error .assertionError ∧
      transmit_check n = .ok ()) ∧
    (4 ≤ n →
      inv4x4_check n = .ok () ∧
      dotmm_check n = .ok () ∧
      dotmd_check n = .ok () ∧
      dotmv_check n = .ok () ∧
      dotmdm_check n = .ok () ∧
      dotmf_check n = .ok () ∧
      dotm1f_check n = .ok () ∧
      transmit_check n = .ok ()) := by
  constructor
  · intro h
    have h4 : ¬ (4 ≤ n) := by omega
    simp [inv4x4_check, dotmm_check, dotmd_check, dotmv_check, dotmdm_check,
      dotmf_check, dotm1f_check, transmit_check, pyAssert, h4]
  · intro h
    simp [inv4x4_check, dotmm_check, dotmd_check, dotmv_check, dotmdm_check,
      dotmf_check, dotm1f_check, transmit_check, pyAssert, h]

/-- Witness for C7 at the concrete dimensions 3 and 4. -/
theorem claim_C7_witness :
    (inv4x4_check 3 = .error .assertionError ∧ transmit_check 3 = .ok ()) ∧
    inv4x4_check 4 = .ok () :=
  ⟨⟨((claim_C7_shape_asserts 3).1 (by decide)).1,
    ((claim_C7_shape_asserts 3).1 (by decide)).2.2.2.2.2.2.2⟩,
   ((claim_C7_shape_asserts 4).2 (by decide)).1⟩

/-- C9: the split branch of transfer_field drops the method parameter, so
with method "full" and split True every ray is propagated with the default
method "effective", unlike the split False call on the same rays; with
distinct effective and full propagators the outputs differ at the failing
input.  The code comment and docstring present split as a pure memory
optimization, so this is a slip in the code, not in the claim. -/
theorem claim_C9_split_drops_method :
    transfer_field_rays (fun n : ℕ => n) (fun n : ℕ => n + 1) true "full" [0]
      = [0] ∧
    transfer_field_rays (fun n : ℕ => n) (fun n : ℕ => n + 1) false "full" [0]
      = [1] ∧
    (∀ (F : Type) (eff full : F → F) (rays : List F),
      transfer_field_rays eff full true "effective" rays
        = transfer_field_rays eff full false "effective" rays) := by
  refine ⟨by decide, by decide, fun F eff full rays => rfl⟩


theorem validate_isOk_eq_checked (t m a : Shape) :
    exceptIsOk (validate_optical_data t m a false) = checked_invariants t m a := by
  simp only [validate_optical_data, checked_invariants, Bool.and_false,
    Bool.false_or, Bool.not_false, Bool.and_true]
  repeat' split
  all_goals simp_all [exceptIsOk]


/-- C8 counterexample: material and angles of shape (1, 2, 2, 7) violate
the data-model invariant of a trailing dimension of 3, yet validation
accepts them and the computation proceeds: no ValueError is raised. -/
theorem claim_C8_counterexample :
    spec_valid_optical_data [1] [1, 2, 2, 7] [1, 2, 2, 7] = false ∧
    validate_optical_data [1] [1, 2, 2, 7] [1, 2, 2, 7] false
      = .ok ([1], [1, 2, 2, 7], [1, 2, 2, 7]) ∧
    transfer_field_eager (fun v => v) [1] [1, 2, 2, 7] [1, 2, 2, 7]
      = .ok ([1], [1, 2, 2, 7], [1, 2, 2, 7]) := by decide

/-- C8 amended: _transfer_field validates the optical data before any
propagation: when validation fails, the same error is returned for every
propagation function, and validation fails exactly when the checked shape
invariants (dimension counts after broadcast, matching lengths, equal
material and angles shapes) are violated; the trailing-dimension-3
invariant of the data model is not among the checks. -/
theorem claim_C8_validation_eager {A : Type} (t m a : Shape)
    (p q : Shape × Shape × Shape → A) :
    (∀ e, validate_optical_data t m a false = .error e →
      transfer_field_eager p t m a = .error e ∧
      transfer_field_eager q t m a = .error e) ∧
    (∀ v, validate_optical_data t m a false = .ok v →
      transfer_field_eager p t m a = .ok (p v)) ∧
    exceptIsOk (validate_optical_data t m a false)
      = checked_invariants t m a := by
  refine ⟨?_, ?_, validate_isOk_eq_checked t m a⟩
  · intro e he
    constructor <;> simp [transfer_field_eager, he, Except.map]
  · intro v hv
    simp [transfer_field_eager, hv, Except.map]

/-- Witness for C8: a concrete malformed tuple is rejected with the same
ValueError for two different propagation functions, and a concrete valid
tuple propagates. -/
theorem claim_C8_witness :
    (transfer_field_eager (fun v => v) [1] [2, 2, 3] [9]
        = .error (.valueError "Angles length should match thickness length")
      ∧ transfer_field_eager (fun _ => (([] : Shape), ([] : Shape), ([] : Shape)))
          [1] [2, 2, 3] [9]
        = .error (.valueError "Angles length should match thickness length")) ∧
    transfer_field_eager (fun v => v) [1] [2, 2, 3] [2, 2, 3]
      = .ok ([1], [1, 2, 2, 3], [1, 2, 2, 3]) :=
  ⟨(claim_C8_validation_eager [1] [2, 2, 3] [9] (fun v => v)
      (fun _ => (([] : Shape), ([] : Shape), ([] : Shape)))).1 _ (by decide),
   (claim_C8_validation_eager [1] [2, 2, 3] [2, 2, 3] (fun v => v)
      (fun v => v)).2.1 _ (by decide)⟩

theorem fin4_parity0 : ((0 : Fin 4)).val % 2 = 0 := rfl

theorem fin4_parity1 : ((1 : Fin 4)).val % 2 = 1 := rfl

theorem fin4_parity2 : ((2 : Fin 4)).val % 2 = 0 := rfl

theorem fin4_parity3 : ((3 : Fin 4)).val % 2 = 1 := rfl

theorem projection_t_add_r {P : Type} (cexp : K → K) (hexp : cexp 0 = 1)
    (alpha : P → Vec4 K) (f fi : P → Mat4 K)
    (hfi : ∀ p i j, dotmm (f p) (fi p) i j = id4 i j)
    (beta : P → ℚ) (betamax : ℚ) (hmask : ∀ p, beta p < betamax)
    (p : P) (k l : Fin 4) :
    projection_matrix cexp alpha f fi beta betamax (some "t") p k l
      + projection_matrix cexp alpha f fi beta betamax (some "r") p k l
      = id4 k l := by
  have hm : ¬ betamax ≤ beta p := not_le.mpr (hmask p)
  have key := hfi p k l
  simp only [dotmm] at key
  simp [projection_matrix, diffraction_alphaffi, hm, dotmdm, dotmm, dotmd,
    phase_matrix, phasem, zero_mul, hexp, fin4_parity0, fin4_parity1,
    fin4_parity2, fin4_parity3]
  linear_combination key

/-- C2: with no Fourier mode discarded by the cutoff (every grid beta
below betamax, the betamax equal to infinity case), the transmitted
projection and the reflected projection of a field add up to the field
exactly, given the layer-optics contract that fi is the inverse of f and
the transform contract that ifft2 inverts fft2 and is additive. -/
theorem claim_C2_projections_complementary {P : Type}
    (fft2 ifft2 : FieldArr P K → FieldArr P K)
    (hinv : ∀ x, ifft2 (fft2 x) = x)
    (hadd : ∀ x y, ifft2 (fun p k => x p k + y p k)
      = fun p k => ifft2 x p k + ifft2 y p k)
    (cexp : K → K) (hexp : cexp 0 = 1)
    (alpha : P → Vec4 K) (f fi : P → Mat4 K)
    (hfi : ∀ p i j, dotmm (f p) (fi p) i j = id4 i j)
    (beta : P → ℚ) (betamax : ℚ) (hmask : ∀ p, beta p < betamax)
    (fieldv : FieldArr P K) (p : P) (k : Fin 4) :
    projected_field fft2 ifft2 cexp alpha f fi beta betamax (some "t")
        fieldv p k
      + projected_field fft2 ifft2 cexp alpha f fi beta betamax (some "r")
        fieldv p k
      = fieldv p k := by
  have hP := projection_t_add_r cexp hexp alpha f fi hfi beta betamax hmask
  simp only [projected_field, diffract]
  have hsum : (fun q m =>
      dotmf (projection_matrix cexp alpha f fi beta betamax (some "t"))
        (fft2 fieldv) q m
      + dotmf (projection_matrix cexp alpha f fi beta betamax (some "r"))
        (fft2 fieldv) q m) = fft2 fieldv := by
    funext q m
    have e0 := hP q m 0
    have e1 := hP q m 1
    have e2 := hP q m 2
    have e3 := hP q m 3
    have expand : dotmf (projection_matrix cexp alpha f fi beta betamax
          (some "t")) (fft2 fieldv) q m
        + dotmf (projection_matrix cexp alpha f fi beta betamax (some "r"))
          (fft2 fieldv) q m
        = (projection_matrix cexp alpha f fi beta betamax (some "t") q m 0
            + projection_matrix cexp alpha f fi beta betamax (some "r") q m 0)
            * fft2 fieldv q 0
          + (projection_matrix cexp alpha f fi beta betamax (some "t") q m 1
            + projection_matrix cexp alpha f fi beta betamax (some "r") q m 1)
            * fft2 fieldv q 1
          + (projection_matrix cexp alpha f fi beta betamax (some "t") q m 2
            + projection_matrix cexp alpha f fi beta betamax (some "r") q m 2)
            * fft2 fieldv q 2
          + (projection_matrix cexp alpha f fi beta betamax (some "t") q m 3
            + projection_matrix cexp alpha f fi beta betamax (some "r") q m 3)
            * fft2 fieldv q 3 := by
      simp only [dotmf]
      ring
    rw [expand, e0, e1, e2, e3]
    rcases fin4_enum m with rfl | rfl | rfl | rfl <;> simp [id4]
  calc ifft2 (dotmf (projection_matrix cexp alpha f fi beta betamax
          (some "t")) (fft2 fieldv)) p k
      + ifft2 (dotmf (projection_matrix cexp alpha f fi beta betamax
          (some "r")) (fft2 fieldv)) p k
      = ifft2 (fun q m =>
          dotmf (projection_matrix cexp alpha f fi beta betamax (some "t"))
            (fft2 fieldv) q m
          + dotmf (projection_matrix cexp alpha f fi beta betamax (some "r"))
            (fft2 fieldv) q m) p k := by
        rw [hadd]
    _ = ifft2 (fft2 fieldv) p k := by rw [hsum]
    _ = fieldv p k := by rw [hinv]

/-- Witness for C2: one pixel, the identity transform pair, identity eigen
matrices, zero beta against betamax one, over the field ZMod 3. -/
theorem claim_C2_witness :
    projected_field (P := Unit) (K := ZMod 3) id id (fun _ => 1)
        (fun _ _ => 0) (fun _ => id4) (fun _ => id4) (fun _ => 0) 1
        (some "t") (fun _ k => (k.val : ZMod 3)) () 2
      + projected_field (P := Unit) (K := ZMod 3) id id (fun _ => 1)
        (fun _ _ => 0) (fun _ => id4) (fun _ => id4) (fun _ => 0) 1
        (some "r") (fun _ k => (k.val : ZMod 3)) () 2
      = ((2 : Fin 4).val : ZMod 3) :=
  claim_C2_projections_complementary id id (fun x => rfl) (fun x y => rfl)
    (fun _ => 1) rfl (fun _ _ => 0) (fun _ => id4) (fun _ => id4)
    (by decide) (fun _ => 0) 1 (fun _ => show (0 : ℚ) < 1 by decide)
    (fun _ k => (k.val : ZMod 3)) () 2

/-- C5: diffracting with a per-pixel matrix that is everywhere
nonsingular and then diffracting with its inv4x4 inverse, with no window,
returns the original field exactly, given that fft2 and ifft2 are
mutually inverse.  The identity matrix case of the claim is the instance
with M the identity. -/
theorem claim_C5_diffract_roundtrip {P : Type}
    (fft2 ifft2 : FieldArr P K → FieldArr P K)
    (hf : ∀ x, fft2 (ifft2 x) = x) (hi : ∀ x, ifft2 (fft2 x) = x)
    (M : P → Mat4 K) (hdet : ∀ p, det4 (M p) ≠ 0)
    (fieldv : FieldArr P K) :
    diffract fft2 ifft2 (diffract fft2 ifft2 fieldv M none)
      (fun p => inv4x4val (M p)) none = fieldv := by
  simp only [diffract]
  rw [hf]
  have hcomp : dotmf (fun p => inv4x4val (M p)) (dotmf M (fft2 fieldv))
      = fft2 fieldv := by
    funext q m
    have e0 := dotmm_inv4x4val_left (M q) (hdet q) m 0
    have e1 := dotmm_inv4x4val_left (M q) (hdet q) m 1
    have e2 := dotmm_inv4x4val_left (M q) (hdet q) m 2
    have e3 := dotmm_inv4x4val_left (M q) (hdet q) m 3
    have expand : dotmf (fun p => inv4x4val (M p)) (dotmf M (fft2 fieldv)) q m
        = dotmm (inv4x4val (M q)) (M q) m 0 * fft2 fieldv q 0
          + dotmm (inv4x4val (M q)) (M q) m 1 * fft2 fieldv q 1
          + dotmm (inv4x4val (M q)) (M q) m 2 * fft2 fieldv q 2
          + dotmm (inv4x4val (M q)) (M q) m 3 * fft2 fieldv q 3 := by
      simp only [dotmf, dotmm]
      ring
    rw [expand, e0, e1, e2, e3]
    rcases fin4_enum m with rfl | rfl | rfl | rfl <;> simp [id4]
  rw [hcomp, hi]

/-- Witness for C5: one pixel, identity transforms, the nonsingular
matrix diag(1, 2, 1, 2) over ZMod 3. -/
theorem claim_C5_witness :
    diffract (P := Unit) id id
      (diffract id id (fun _ k => (k.val : ZMod 3)) (fun _ => sampleM) none)
      (fun _ => inv4x4val sampleM) none
      = (fun _ k => (k.val : ZMod 3)) :=
  claim_C5_diffract_roundtrip id id (fun x => rfl) (fun x => rfl)
    (fun _ => sampleM) (fun _ => show det4 sampleM ≠ 0 by decide)
    (fun _ k => (k.val : ZMod 3))


/-- C6 counterexample: with identity a and b, a unit field, kd = 1 and the
purely imaginary phase diagonal i at every pixel, the kernel multiplies by
exp(i kd Re(i)) = exp 0 = 1, while the formula of the claim gives
exp(i kd i) = exp(-1), which is not 1; so the fused operation does not
return A diag(exp(i kd phaseDiag)) B field for every complex phase
diagonal. -/
theorem claim_C6_counterexample :
    transmit (P := Unit) (fun _ => id4) (fun _ _ => Complex.I)
        (fun _ => id4) (fun _ _ => 1) 1 () 0
      ≠ transmit_spec_px id4 (fun _ => Complex.I) id4 (fun _ => 1) 1 0 := by
  have hL : transmit (P := Unit) (fun _ => id4) (fun _ _ => Complex.I)
      (fun _ => id4) (fun _ _ => 1) 1 () 0 = 1 := by
    simp [transmit, transmit_px, id4, Complex.I_re]
  have hR : transmit_spec_px id4 (fun _ => Complex.I) id4 (fun _ => 1) 1 0
      = Complex.exp (-1) := by
    have hii : Complex.I * ((1 : ℝ) : ℂ) * Complex.I = -1 := by
      rw [Complex.ofReal_one, mul_one, Complex.I_mul_I]
    simp [transmit_spec_px, dotmv, id4, hii]
  rw [hL, hR]
  intro h
  have h1 : Complex.exp (-1) = ((Real.exp (-1) : ℝ) : ℂ) := by
    rw [Complex.ofReal_exp]
    norm_num
  have h2 : Real.exp (-1) < 1 := by
    calc Real.exp (-1) < Real.exp 0 := Real.exp_lt_exp.mpr (by norm_num)
    _ = 1 := Real.exp_zero
  rw [h1] at h
  have h3 : (Real.exp (-1) : ℝ) = (1 : ℝ) := by
    exact_mod_cast h.symm
  linarith

/-- C6 amended: the fused transmit kernel equals the composition of the
per-pixel matrix application of b, the phase diagonal
exp(i kd Re(phaseDiag)) with the real part of the diagonal entering the
exponential, and the per-pixel matrix application of a, at every
transverse pixel. -/
theorem claim_C6_transmit_fused {P : Type} (a : P → Mat4 ℂ)
    (d : P → Vec4 ℂ) (b : P → Mat4 ℂ) (fv : FieldArr P ℂ) (kd : ℝ)
    (p : P) (k : Fin 4) :
    transmit a d b fv kd p k
      = dotmf a (phase_apply_re d kd (dotmf b fv)) p k := by
  simp only [transmit, transmit_px, dotmf, phase_apply_re]
  ring

theorem total_intensity_smul {P : Type} [Fintype P] (c : ℝ) (f : CField P) :
    total_intensity (fun p k => (c : ℂ) * f p k)
      = c ^ 2 * total_intensity f := by
  unfold total_intensity
  rw [Finset.mul_sum]
  refine Finset.sum_congr rfl fun p _ => ?_
  rw [Finset.mul_sum]
  refine Finset.sum_congr rfl fun k _ => ?_
  rw [Complex.normSq_mul, Complex.normSq_ofReal]
  ring

/-- C1 counterexample: with the identity projection, reference intensity
i0 = 1 and a backward field of total transmitted intensity 4, the field
rescaled by fact = i0 / i0f has total transmitted intensity 1/4, not the
reference intensity 1 the claim asserts: intensity is quadratic in the
amplitude, so multiplying the field by i0 / i0f does not bring its
intensity to i0. -/
theorem claim_C1_counterexample :
    total_intensity (rescaled_transmitted (fun f => f) 1 cfield_b) ≠ 1 := by
  have h4 : total_intensity ((fun f => f) cfield_b) = 4 := by
    simp [total_intensity, cfield_b, Fin.sum_univ_four, Complex.normSq_apply]
    norm_num
  have hval : total_intensity (rescaled_transmitted (fun f => f) 1 cfield_b)
      = ((1 : ℝ) / total_intensity ((fun f => f) cfield_b)) ^ 2
        * total_intensity ((fun f => f) cfield_b) := by
    unfold rescaled_transmitted
    rw [total_intensity_smul]
  rw [hval, h4]
  norm_num

/-- C1 amended: after a non-final backward pass the new field is the
original input minus the rescaled transmitted projection, the new field_in
is the backward field scaled by fact = i0 / i0f plus that new field, the
accumulated field_out is scaled by the same factor, and the total
intensity of the rescaled transmitted projection is i0 squared divided by
i0f (which equals the reference intensity i0 only when i0f = i0): the
rescale matches the intensities only linearly, while intensity is
quadratic in the amplitude. -/
theorem claim_C1_backward_rescale {P : Type} [Fintype P]
    (projT : CField P → CField P) (i0 : ℝ)
    (field0 field_b field_out : CField P) :
    (backward_pass_update projT i0 field0 field_b field_out).1
        = (fun p k => field0 p k - rescaled_transmitted projT i0 field_b p k)
      ∧
    (backward_pass_update projT i0 field0 field_b field_out).2.1
        = (fun p k =>
            ((i0 / total_intensity (projT field_b) : ℝ) : ℂ) * field_b p k
            + (field0 p k - rescaled_transmitted projT i0 field_b p k)) ∧
    (backward_pass_update projT i0 field0 field_b field_out).2.2
        = (fun p k =>
            ((i0 / total_intensity (projT field_b) : ℝ) : ℂ)
              * field_out p k) ∧
    total_intensity (rescaled_transmitted projT i0 field_b)
      = i0 ^ 2 / total_intensity (projT field_b) := by
  refine ⟨rfl, rfl, rfl, ?_⟩
  have h := total_intensity_smul (P := P)
    (i0 / total_intensity (projT field_b)) (projT field_b)
  unfold rescaled_transmitted
  rw [h]
  rcases eq_or_ne (total_intensity (projT field_b)) 0 with h0 | h0
  · rw [h0]
    simp
  · field_simp
    ring

/-- C10: with npass = 1 the returned field_in contents are exactly the
original input field: the array is zeroed at the start of the call and
overwritten with the saved copy field0 at the end of the single pass, for
every propagation, projection, reduction and output-write behaviour and
either interference setting. -/
theorem claim_C10_single_pass_restores_field_in {P : Type} [Fintype P]
    (interference : Bool) (prop : ℕ → CField P → CField P)
    (jreduce normProjT projTin out_write : CField P → CField P)
    (field_in_orig : CField P) (npass : ℕ) (h : npass = 1) :
    (transfer_field_passes npass interference prop jreduce normProjT projTin
      out_write field_in_orig).field_in = field_in_orig := by
  subst h
  have h01 : List.range 1 = [0] := rfl
  simp [transfer_field_passes, transfer_pass, h01]

/-- Witness for C10 at a concrete single-pixel instantiation. -/
theorem claim_C10_witness :
    (transfer_field_passes (P := Fin 1) 1 false (fun _ f => f) id id id id
      (fun _ k => (k.val : ℂ))).field_in = (fun _ k => (k.val : ℂ)) :=
  claim_C10_single_pass_restores_field_in false (fun _ f => f) id id id id
    (fun _ k => (k.val : ℂ)) 1 rfl

end Dtmm
